import Mathlib

/-!
# Verification of the dividend-ETF rotation signal generator

Shallow embedding of the single Python module (`红利三剑客.py`) of this
repository, together with theorems settling the frozen claims about it.

Modelling conventions:
* Python floats are modelled as real numbers (`ℝ`) where the code applies
  transcendental functions (`np.log`, `np.sqrt`), and as rationals (`ℚ`)
  in the yield provider, whose arithmetic is elementary.
* Dates are modelled as integers: in the price pipeline a date is a day
  number (`ℕ`); in the cache-freshness check timestamps are counted in
  seconds (`ℤ`) so that `timedelta.days` becomes floor division by 86400.
* `NaN` cells of a pandas series are modelled as `none : Option ℝ`;
  arithmetic on series propagates `none` exactly as pandas propagates NaN.
  Real division by zero follows Lean's `x / 0 = 0` convention; every
  theorem below that touches such a cell only asserts facts that are
  insensitive to the difference between that convention and IEEE `inf`.
* External effects (the akshare fetches, `time.sleep`, the webhook POST)
  are passed in as explicit inputs or recorded in an event trace.
-/

/-! ## Strategy configuration (lines 12-30 of the source) -/

def ETF_tickers : List String := ["510720", "515180", "512890"]

def DEFAULT_DIV : List (String × ℚ) :=
  [("510720", 45/10), ("515180", 42/10), ("512890", 4)]

def LOOKBACK_DAYS : ℕ := 60

def RISK_FREE_RATE : ℝ := 0.02

def DIV_CACHE_DAYS : ℤ := 30

def REQUEST_DELAY : ℕ := 2

/-! ## Yield cache freshness (lines 37-46)

`last_update` is parsed with format `%Y-%m-%d`, i.e. it denotes midnight of
the recorded day; `datetime.now()` carries the time of day.  Both are
modelled as timestamps in seconds.  For a Python `timedelta`, `.days` is
the floor of the difference measured in days, i.e. `Int.fdiv` by 86400. -/

def cacheFresh (now last_update : ℤ) : Bool :=
  (now - last_update).fdiv 86400 < DIV_CACHE_DAYS

/-! ## Yield provider (lines 33-82)

The akshare call, the `股息率` row lookup, the `'%' in value` test and the
`float` parse together either produce a parsed percentage or fail (any
failure path raises and lands in the `except` arm).  That interface is the
`FetchResult` input below.  `round(x, 2)` is Python banker's rounding to
two decimals, modelled exactly on `ℚ`. -/

inductive FetchResult where
  | fail : FetchResult
  | ok : ℚ → FetchResult
deriving DecidableEq

/-- Round half to even to an integer, as Python's `round` does. -/
def roundHalfEven (x : ℚ) : ℤ :=
  let f : ℤ := ⌊x⌋
  let r : ℚ := x - f
  if r < 1/2 then f
  else if 1/2 < r then f + 1
  else if f % 2 = 0 then f else f + 1

/-- Python's `round(x, 2)`. -/
def pyRound2 (x : ℚ) : ℚ := (roundHalfEven (x * 100) : ℚ) / 100

/-- Model of `DEFAULT_DIV.get(ticker, 3.0)` (line 70). -/
def defaultDiv (ticker : String) : ℚ := (DEFAULT_DIV.lookup ticker).getD 3

/-- One iteration of the fetch loop (lines 51-70): an accepted in-range
value is rounded and stored, every failure path stores the default. -/
def fetchDivRate (res : FetchResult) (ticker : String) : ℚ :=
  match res with
  | .ok v => if 0 < v ∧ v < 15 then pyRound2 v else defaultDiv ticker
  | .fail => defaultDiv ticker

/-- The rates map built by the refresh loop (lines 49-72). -/
def refreshRates (fetch : String → FetchResult) : List (String × ℚ) :=
  ETF_tickers.map (fun t => (t, fetchDivRate (fetch t) t))

/-- Model of `get_dividend_rates` (lines 33-82).  `cache` is the parsed cache file:
`none` when the file is absent or any part of the `try` block raised
(lines 37-46), otherwise the `last_update` timestamp and the stored rates.
The final `json.dump` is an external effect and does not affect the
returned value. -/
def get_dividend_rates (cache : Option (ℤ × List (String × ℚ))) (now : ℤ)
    (fetch : String → FetchResult) : List (String × ℚ) :=
  match cache with
  | some (lu, rates) =>
      if cacheFresh now lu then rates else refreshRates fetch
  | none => refreshRates fetch

/-! ### Event trace of the refresh loop (for the timing claim)

On the success path (lines 62-64) the loop body ends with `continue`,
which jumps to the next iteration; the `time.sleep(REQUEST_DELAY)` on
line 72 sits after the `except` arm and is therefore only reached on the
failure paths. -/

inductive Ev where
  | request : String → Ev
  | sleep : ℕ → Ev
deriving DecidableEq

/-- Events of one iteration of the loop of lines 51-72. -/
def tickerTrace (fetch : String → FetchResult) (t : String) : List Ev :=
  Ev.request t ::
    (match fetch t with
     | .ok v =>
         if 0 < v ∧ v < 15 then []          -- `continue` skips line 72
         else [Ev.sleep REQUEST_DELAY]
     | .fail => [Ev.sleep REQUEST_DELAY])

/-- Event trace of the whole refresh loop. -/
def refreshTrace (fetch : String → FetchResult) : List Ev :=
  ETF_tickers.foldr (fun t acc => tickerTrace fetch t ++ acc) []

/-! ## Notifier (lines 195-205)

The module's imports (lines 1-8) bind these names; `requests` is not
among them.  Inside `send_wechat_notification` the first reference to
`requests.post` raises `NameError`; the handler clause
`except requests.RequestException` must itself evaluate `requests`,
raises `NameError` again, and the exception escapes the function. -/

def moduleImportedNames : List String :=
  ["ak", "pd", "np", "datetime", "timedelta", "json", "os", "time", "warnings"]

inductive NotifyOutcome where
  | ok : NotifyOutcome                  -- POST succeeded, success printed
  | caught : NotifyOutcome              -- RequestException caught, failure printed
  | raised : String → NotifyOutcome     -- an exception escaped the function
deriving DecidableEq

/-- Model of `send_wechat_notification` (lines 195-205).  `postResult` is the
outcome of `requests.post` + `raise_for_status` were they reached:
`.error` stands for a raised `requests.RequestException`. -/
def send_wechat_notification (message : String) (postResult : Except Unit Unit) :
    NotifyOutcome :=
  if "requests" ∈ moduleImportedNames then
    match postResult with
    | .ok _ => .ok
    | .error _ => .caught
  else
    .raised "NameError"

/-! ## Price history provider (`fetch_etf_data`, lines 85-139)

The akshare call returns a tabular frame; the function identifies a date
column (name containing `日期`) and a close column (name containing
`收盘`), renames them, sorts ascending by date and requires at least
`LOOKBACK_DAYS` rows.  A raw frame is modelled by its column names and,
for each row, the pair of cells of the identified date and close columns
(a day number and a close price).  `sort_values('date')` is modelled by
`List.insertionSort` on the date component: a correct ascending sort, as
the source requests.  Nothing in the function removes duplicate dates. -/

structure RawDF where
  cols : List String
  data : List (ℕ × ℝ)

/-- Whether `p` is a prefix of `s` (on character lists). -/
def listStarts : List Char → List Char → Bool
  | [], _ => true
  | _ :: _, [] => false
  | a :: ps, b :: ss => a == b && listStarts ps ss

/-- Whether `p` occurs as a contiguous substring of `s` (on character lists). -/
def hasSub (p : List Char) : List Char → Bool
  | [] => p.isEmpty
  | b :: ss => listStarts p (b :: ss) || hasSub p ss

/-- Python's `marker in col` on strings. -/
def colHas (marker col : String) : Bool := hasSub marker.data col.data

/-- Date-ordering used for `sort_values('date')`. -/
def dateLe (a b : ℕ × ℝ) : Prop := a.1 ≤ b.1

instance : DecidableRel dateLe := fun a b => Nat.decLe a.1 b.1

instance : IsTotal (ℕ × ℝ) dateLe := ⟨fun a b => Nat.le_total a.1 b.1⟩

instance : IsTrans (ℕ × ℝ) dateLe := ⟨fun _ _ _ h h2 => Nat.le_trans h h2⟩

/-- The body of the per-ticker `try` block of `fetch_etf_data`
(lines 92-131): identify columns, sort by date, require at least
`LOOKBACK_DAYS` rows; `none` is the `except` path (the instrument is
omitted from the result map). -/
def fetch_etf_one (raw : RawDF) : Option (List (ℕ × ℝ)) :=
  let date_cols := raw.cols.filter (fun c => colHas "日期" c)
  let close_cols := raw.cols.filter (fun c => colHas "收盘" c)
  if date_cols.isEmpty || close_cols.isEmpty then none
  else
    let sorted := raw.data.insertionSort dateLe
    if sorted.length < LOOKBACK_DAYS then none
    else some sorted

/-- Model of `fetch_etf_data` (lines 85-139) over the raw frames returned by the
external source: instruments whose normalization fails are omitted. -/
def fetch_etf_data (raws : List (String × RawDF)) : List (String × List (ℕ × ℝ)) :=
  raws.foldr
    (fun p acc =>
      match fetch_etf_one p.2 with
      | some s => (p.1, s) :: acc
      | none => acc)
    []

/-! ## Signal engine (`calculate_signals`, lines 142-166)

A price series is the normalized frame of one instrument: a list of
(date, close) pairs indexed positionally, exactly as a pandas frame with
a `DatetimeIndex`.  The derived pandas series are functions from the row
position to `Option ℝ` (`none` = NaN):

* `returns` (line 150) is NaN at position 0;
* `momentum` (line 151, `pct_change(periods=LOOKBACK_DAYS)`) is NaN
  before position `LOOKBACK_DAYS`;
* `volatility` (line 152, `rolling(LOOKBACK_DAYS).std()` of `returns`,
  sample standard deviation, ddof = 1) is NaN while its window still
  contains the NaN at position 0, i.e. before position `LOOKBACK_DAYS`.

The branch on line 155 tests only `volatility.iloc[-1]`; when it is zero
`sharpe` is the scalar `momentum.iloc[-1] * 10` and the column assignment
broadcasts it, otherwise `sharpe` is a series and NaN cells propagate
through line 158 and line 161. -/

/-- The close-price column of a series. -/
def closesOf (s : List (ℕ × ℝ)) : List ℝ := s.map (fun p => p.2)

/-- Cell of the close column at a row position (total; only read under
guards that keep the position in range). -/
noncomputable def closeAt (cl : List ℝ) (t : ℕ) : ℝ := cl.getD t 0

/-- Value of `returns` at position `t ≥ 1` (line 150). -/
noncomputable def retAt (cl : List ℝ) (t : ℕ) : ℝ :=
  Real.log (closeAt cl t / closeAt cl (t - 1))

/-- Value of `momentum` at a position where it is defined (line 151). -/
noncomputable def momVal (cl : List ℝ) (t : ℕ) : ℝ :=
  closeAt cl t / closeAt cl (t - LOOKBACK_DAYS) - 1

/-- The `momentum` series (line 151): NaN before position `LOOKBACK_DAYS`
and beyond the frame. -/
noncomputable def momAt (cl : List ℝ) (t : ℕ) : Option ℝ :=
  if LOOKBACK_DAYS ≤ t ∧ t < cl.length then some (momVal cl t) else none

/-- The rolling window of `returns` values ending at position `t`
(positions `t - LOOKBACK_DAYS + 1 .. t`). -/
noncomputable def retWindow (cl : List ℝ) (t : ℕ) : List ℝ :=
  (List.range LOOKBACK_DAYS).map (fun i => retAt cl (t - (LOOKBACK_DAYS - 1) + i))

/-- Arithmetic mean of a list of reals. -/
noncomputable def listMean (l : List ℝ) : ℝ := l.sum / l.length

/-- Sample standard deviation (pandas `std()`, ddof = 1). -/
noncomputable def sampleStd (l : List ℝ) : ℝ :=
  Real.sqrt ((l.map (fun x => (x - listMean l) ^ 2)).sum / ((l.length : ℝ) - 1))

/-- Value of `volatility` at a position where it is defined (line 152). -/
noncomputable def volVal (cl : List ℝ) (t : ℕ) : ℝ :=
  sampleStd (retWindow cl t) * Real.sqrt 252

/-- The `volatility` series (line 152): NaN while the rolling window
still covers the NaN at position 0 of `returns`, or beyond the frame. -/
noncomputable def volAt (cl : List ℝ) (t : ℕ) : Option ℝ :=
  if LOOKBACK_DAYS ≤ t ∧ t < cl.length then some (volVal cl t) else none

/-- The series-branch `sharpe` (line 158): NaN cells of `momentum` and
`volatility` propagate. -/
noncomputable def sharpeElse (cl : List ℝ) (t : ℕ) : Option ℝ :=
  if LOOKBACK_DAYS ≤ t ∧ t < cl.length then
    some ((momVal cl t - RISK_FREE_RATE / 252) / volVal cl t)
  else none

/-- The series-branch `score` at a position (line 161). -/
noncomputable def scoreAt (cl : List ℝ) (divFactor : ℝ) (t : ℕ) : Option ℝ :=
  (sharpeElse cl t).map (fun sh => sh * 0.7 + divFactor * 0.3)

/-- What line 163 assigns into the `signals` frame: either a scalar
(zero-volatility fallback, broadcast by pandas) or a date-indexed series. -/
inductive ColVal where
  | scalar : ℝ → ColVal
  | series : List (ℕ × Option ℝ) → ColVal

/-- Model of `div_rates.get(ticker, 3.0) / 100` (line 160). -/
noncomputable def divFactorOf (div_rates : List (String × ℝ)) (ticker : String) : ℝ :=
  ((div_rates.lookup ticker).getD 3) / 100

open Classical in
/-- The score column computed for one instrument (lines 150-161),
branching on `volatility.iloc[-1] == 0` (line 155). -/
noncomputable def instrScore (s : List (ℕ × ℝ)) (divFactor : ℝ) : ColVal :=
  let cl := closesOf s
  if volAt cl (cl.length - 1) = some 0 then
    .scalar (momVal cl (cl.length - 1) * 10 * 0.7 + divFactor * 0.3)
  else
    .series ((List.range s.length).map (fun t => ((s.getD t (0, 0)).1, scoreAt cl divFactor t)))

/-- The `signals` frame: a date index and one value column per ticker,
each column positionally aligned with the index. -/
structure ScoreTable where
  index : List ℕ
  cols : List (String × List (Option ℝ))

/-- Model of `signals[ticker] = score` (line 163).  On a frame with no columns a
series assignment installs the series' own dates as the index, while a
scalar assignment leaves the (empty) index unchanged; on a frame that
already has columns the index is fixed: a series is realigned to it by
exact date lookup (absent dates become NaN) and a scalar is broadcast. -/
def assignCol (T : ScoreTable) (name : String) (c : ColVal) : ScoreTable :=
  match c with
  | .scalar v =>
      if T.cols.isEmpty then ⟨T.index, [(name, [])]⟩
      else ⟨T.index, T.cols ++ [(name, T.index.map (fun _ => some v))]⟩
  | .series s =>
      if T.cols.isEmpty then ⟨s.map (fun p => p.1), [(name, s.map (fun p => p.2))]⟩
      else
        ⟨T.index,
         T.cols ++ [(name, T.index.map (fun d => (s.find? (fun p => p.1 == d)).bind (fun p => p.2)))]⟩

/-- The `signals` frame after the `for` loop of lines 146-163 (before
`dropna`): instruments with fewer than `LOOKBACK_DAYS` rows are skipped. -/
noncomputable def buildSignals (data : List (String × List (ℕ × ℝ)))
    (div_rates : List (String × ℝ)) : ScoreTable :=
  data.foldl
    (fun T p =>
      if p.2.length < LOOKBACK_DAYS then T
      else assignCol T p.1 (instrScore p.2 (divFactorOf div_rates p.1)))
    ⟨[], []⟩

/-- Row positions kept by `signals.dropna()` (line 165): those where
every column holds a non-NaN value. -/
def keptRows (T : ScoreTable) : List ℕ :=
  (List.range T.index.length).filter
    (fun i => T.cols.all (fun c => (c.2.getD i none).isSome))

/-- Model of `signals.dropna(inplace=True)` (line 165). -/
def dropna (T : ScoreTable) : ScoreTable :=
  ⟨(keptRows T).map (fun i => T.index.getD i 0),
   T.cols.map (fun c => (c.1, (keptRows T).map (fun i => c.2.getD i none)))⟩

/-- Model of `calculate_signals` (lines 142-166). -/
noncomputable def calculate_signals (data : List (String × List (ℕ × ℝ)))
    (div_rates : List (String × ℝ)) : ScoreTable :=
  dropna (buildSignals data div_rates)

/-- Model of `signals.iloc[-1].idxmax()` (line 190): ticker of the first maximal
non-NaN entry of the last row. -/
noncomputable def idxmaxLast (T : ScoreTable) : Option String :=
  (T.cols.foldl
    (fun best c =>
      match c.2.getD (T.index.length - 1) none with
      | none => best
      | some v =>
          match best with
          | none => some (c.1, v)
          | some (bn, bv) => if bv < v then some (c.1, v) else some (bn, bv))
    none).map (fun p => p.1)

/-- The recommendation branch of `__main__` (lines 185-193): no
recommendation is produced when the signal table is empty. -/
noncomputable def recommend (T : ScoreTable) : Option String :=
  if T.index.isEmpty then none else idxmaxLast T

/-! ## General list helpers -/

lemma getD_map_range {α : Type} (f : ℕ → α) {n t : ℕ} (d : α) (h : t < n) :
    (((List.range n).map f).getD t d) = f t := by
  rw [List.getD_eq_getElem?_getD, List.getElem?_map, List.getElem?_range h]
  rfl

lemma getD_all_none {α : Type} {l : List (Option α)} (h : ∀ v ∈ l, v = none) (i : ℕ) :
    l.getD i none = none := by
  rw [List.getD_eq_getElem?_getD]
  rcases hlt : l[i]? with _ | v
  · rfl
  · obtain ⟨hi, hv⟩ := List.getElem?_eq_some_iff.mp hlt
    simpa [hv] using h _ (hv ▸ List.getElem_mem hi)

/-! ## Sample standard deviation: two basic facts -/

lemma listMean_const {l : List ℝ} {c : ℝ} (hne : l ≠ []) (h : ∀ x ∈ l, x = c) :
    listMean l = c := by
  have hsum : l.sum = l.length • c := List.sum_eq_card_nsmul l c h
  have hlen : (l.length : ℝ) ≠ 0 := by
    simpa using List.length_pos.mpr hne |>.ne'
  rw [listMean, hsum, nsmul_eq_mul]
  field_simp

/-- A constant list has zero sample standard deviation. -/
lemma sampleStd_const {l : List ℝ} {c : ℝ} (h : ∀ x ∈ l, x = c) :
    sampleStd l = 0 := by
  rcases eq_or_ne l [] with rfl | hne
  · simp [sampleStd]
  · have hmean := listMean_const hne h
    have hzero : (l.map (fun x => (x - listMean l) ^ 2)).sum = 0 := by
      apply List.sum_eq_zero
      intro y hy
      obtain ⟨x, hx, rfl⟩ := List.mem_map.mp hy
      rw [h x hx, hmean, sub_self]
      ring
    rw [sampleStd, hzero, zero_div, Real.sqrt_zero]

/-- A list with two different members has positive sample standard
deviation. -/
lemma sampleStd_pos {l : List ℝ} {a b : ℝ} (ha : a ∈ l) (hb : b ∈ l) (hab : a ≠ b) :
    0 < sampleStd l := by
  have hlen : 2 ≤ l.length := by
    rcases l with _ | ⟨x, l'⟩
    · simp at ha
    · rcases l' with _ | ⟨y, l''⟩
      · simp at ha hb
        exact absurd (ha.trans hb.symm) hab
      · simp [Nat.succ_le_succ, Nat.le_add_left]
  have hx : ∃ x ∈ l, x ≠ listMean l := by
    by_contra hcon
    push_neg at hcon
    exact hab ((hcon a ha).trans (hcon b hb).symm)
  obtain ⟨x, hxl, hxm⟩ := hx
  have hterm : (0:ℝ) < (x - listMean l) ^ 2 := by
    rw [pow_two]
    exact mul_self_pos.mpr (sub_ne_zero.mpr hxm)
  have hsum : (x - listMean l) ^ 2 ≤ (l.map (fun y => (y - listMean l) ^ 2)).sum := by
    apply List.single_le_sum
    · intro y hy
      obtain ⟨z, _, rfl⟩ := List.mem_map.mp hy
      positivity
    · exact List.mem_map_of_mem _ hxl
  have hden : (0:ℝ) < (l.length : ℝ) - 1 := by
    have : (2:ℝ) ≤ (l.length : ℝ) := by exact_mod_cast hlen
    linarith
  exact Real.sqrt_pos.mpr (div_pos (lt_of_lt_of_le hterm hsum) hden)

/-! ## Concrete price series used as witnesses and counterexamples

* `flatSeries`: 61 days of constant price 1 (a flat series long enough
  for one defined volatility cell, which is 0).
* `flat60Series`: exactly `LOOKBACK_DAYS` days of constant price (every
  momentum/volatility cell NaN).
* `exSeries`: 61 days of price doubling daily followed by one flat day,
  so that the volatility at position 60 is zero while the volatility at
  the last position (61) is not. -/

def flatSeries : List (ℕ × ℝ) := (List.range 61).map (fun i => (i, 1))

def flat60Series : List (ℕ × ℝ) := (List.range 60).map (fun i => (i, 1))

def exSeries : List (ℕ × ℝ) :=
  ((List.range 61).map (fun i => (i, 2 ^ i))) ++ [(61, 2 ^ 60)]

lemma closesOf_range_map (n : ℕ) (f : ℕ → ℝ) :
    closesOf ((List.range n).map (fun i => (i, f i))) = (List.range n).map f := by
  simp [closesOf, List.map_map, Function.comp_def]

lemma flat_closes : closesOf flatSeries = (List.range 61).map (fun _ => 1) :=
  closesOf_range_map 61 (fun _ => 1)

lemma flat_closes_length : (closesOf flatSeries).length = 61 := by
  rw [flat_closes]; simp

lemma flat_closeAt {t : ℕ} (h : t < 61) : closeAt (closesOf flatSeries) t = 1 := by
  rw [closeAt, flat_closes, getD_map_range _ _ h]

lemma flat_retAt {t : ℕ} (h1 : 1 ≤ t) (h2 : t ≤ 60) : retAt (closesOf flatSeries) t = 0 := by
  rw [retAt, flat_closeAt (by omega), flat_closeAt (by omega)]
  simp

lemma flat_vol60 : volAt (closesOf flatSeries) 60 = some 0 := by
  rw [volAt, if_pos (by rw [flat_closes_length]; exact ⟨by norm_num [LOOKBACK_DAYS], by norm_num⟩)]
  rw [volVal, sampleStd_const, zero_mul]
  intro x hx
  obtain ⟨i, hi, rfl⟩ := List.mem_map.mp hx
  have hi' : i < 60 := by simpa [LOOKBACK_DAYS] using List.mem_range.mp hi
  have harg : 60 - (LOOKBACK_DAYS - 1) + i = 1 + i := by norm_num [LOOKBACK_DAYS]
  rw [harg]
  exact flat_retAt (by omega) (by omega)

lemma ex_closes :
    closesOf exSeries = ((List.range 61).map (fun i => (2:ℝ) ^ i)) ++ [2 ^ 60] := by
  simp [closesOf, exSeries, List.map_map, Function.comp_def]

lemma ex_closes_length : (closesOf exSeries).length = 62 := by
  rw [ex_closes]; simp

lemma ex_closeAt {t : ℕ} (h : t < 61) : closeAt (closesOf exSeries) t = 2 ^ t := by
  rw [closeAt, ex_closes, List.getD_append _ _ _ _ (by simpa using h), getD_map_range _ _ h]

lemma ex_closeAt61 : closeAt (closesOf exSeries) 61 = 2 ^ 60 := by
  rw [closeAt, ex_closes, List.getD_eq_getElem?_getD,
    List.getElem?_append_right (by simp)]
  simp

lemma ex_retAt {t : ℕ} (h1 : 1 ≤ t) (h2 : t ≤ 60) :
    retAt (closesOf exSeries) t = Real.log 2 := by
  obtain ⟨k, rfl⟩ : ∃ k, t = k + 1 := ⟨t - 1, by omega⟩
  rw [retAt, ex_closeAt (by omega), ex_closeAt (by omega)]
  congr 1
  rw [Nat.add_sub_cancel, pow_succ]
  exact mul_div_cancel_left₀ _ (pow_ne_zero _ two_ne_zero)

lemma ex_retAt61 : retAt (closesOf exSeries) 61 = 0 := by
  rw [retAt, ex_closeAt61, ex_closeAt (by norm_num),
    div_self (pow_ne_zero _ (by norm_num)), Real.log_one]

lemma ex_volVal60 : volVal (closesOf exSeries) 60 = 0 := by
  rw [volVal, sampleStd_const, zero_mul]
  intro x hx
  obtain ⟨i, hi, rfl⟩ := List.mem_map.mp hx
  have hi' : i < 60 := by simpa [LOOKBACK_DAYS] using List.mem_range.mp hi
  have harg : 60 - (LOOKBACK_DAYS - 1) + i = 1 + i := by norm_num [LOOKBACK_DAYS]
  rw [harg]
  exact ex_retAt (by omega) (by omega)

lemma ex_vol60 : volAt (closesOf exSeries) 60 = some 0 := by
  rw [volAt, if_pos (by rw [ex_closes_length]; exact ⟨by norm_num [LOOKBACK_DAYS], by norm_num⟩)]
  rw [ex_volVal60]

lemma ex_window61_mem_log2 : Real.log 2 ∈ retWindow (closesOf exSeries) 61 := by
  rw [retWindow]
  refine List.mem_map.mpr ⟨0, by norm_num [LOOKBACK_DAYS], ?_⟩
  show retAt (closesOf exSeries) (61 - (LOOKBACK_DAYS - 1) + 0) = Real.log 2
  have harg : 61 - (LOOKBACK_DAYS - 1) + 0 = 2 := by norm_num [LOOKBACK_DAYS]
  rw [harg, ex_retAt (by omega) (by omega)]

lemma ex_window61_mem_zero : (0:ℝ) ∈ retWindow (closesOf exSeries) 61 := by
  rw [retWindow]
  refine List.mem_map.mpr ⟨59, by norm_num [LOOKBACK_DAYS], ?_⟩
  show retAt (closesOf exSeries) (61 - (LOOKBACK_DAYS - 1) + 59) = 0
  have harg : 61 - (LOOKBACK_DAYS - 1) + 59 = 61 := by norm_num [LOOKBACK_DAYS]
  rw [harg, ex_retAt61]

lemma ex_vol61_pos : ∃ v, volAt (closesOf exSeries) 61 = some v ∧ 0 < v := by
  rw [volAt, if_pos (by rw [ex_closes_length]; exact ⟨by norm_num [LOOKBACK_DAYS], by norm_num⟩)]
  refine ⟨_, rfl, ?_⟩
  have hlog : Real.log 2 ≠ 0 := (Real.log_pos one_lt_two).ne'
  exact mul_pos (sampleStd_pos ex_window61_mem_log2 ex_window61_mem_zero hlog)
    (Real.sqrt_pos.mpr (by norm_num))

lemma ex_vol_last_ne : volAt (closesOf exSeries) ((closesOf exSeries).length - 1) ≠ some 0 := by
  rw [ex_closes_length]
  obtain ⟨v, hv, hpos⟩ := ex_vol61_pos
  norm_num [hv]
  exact hpos.ne'

lemma ex_mom60 : momVal (closesOf exSeries) 60 = 2 ^ 60 - 1 := by
  rw [momVal]
  norm_num [LOOKBACK_DAYS, ex_closeAt (show (60:ℕ) < 61 by norm_num),
    ex_closeAt (show (0:ℕ) < 61 by norm_num)]

lemma exSeries_length : exSeries.length = 62 := by
  simp [exSeries]

/-! ## Claim C1 -/

/-- Claim C1 (counterexample): the zero-volatility fallback is NOT applied
per date.  On `exSeries`, the volatility at position 60 is zero, but since
the volatility at the last position (61) is nonzero the code takes the
series branch (line 158) for every date, so the risk-adjusted score at
position 60 is `(m[60] - rf/252) / 0` — not the fallback `m[60] * 10`
(which is `(2^60 - 1) * 10 ≠ 0`). -/
theorem claimC1_counterexample :
    volAt (closesOf exSeries) 60 = some 0 ∧
    volAt (closesOf exSeries) ((closesOf exSeries).length - 1) ≠ some 0 ∧
    sharpeElse (closesOf exSeries) 60 ≠ some (momVal (closesOf exSeries) 60 * 10) := by
  refine ⟨ex_vol60, ex_vol_last_ne, ?_⟩
  rw [sharpeElse,
    if_pos (by rw [ex_closes_length]; exact ⟨by norm_num [LOOKBACK_DAYS], by norm_num⟩)]
  rw [ex_volVal60, div_zero, ex_mom60]
  intro hcontra
  rw [Option.some_inj] at hcontra
  norm_num at hcontra

/-- Claim C1 (amended): the fallback is decided solely by the volatility
at the LAST position (line 155).  When `volatility.iloc[-1] == 0` the
whole column is the single scalar `momentum.iloc[-1] * 10`, blended with
the yield factor. -/
theorem claimC1_amended (s : List (ℕ × ℝ)) (divFactor : ℝ)
    (h : volAt (closesOf s) ((closesOf s).length - 1) = some 0) :
    instrScore s divFactor =
      ColVal.scalar (momVal (closesOf s) ((closesOf s).length - 1) * 10 * 0.7
        + divFactor * 0.3) := by
  simp only [instrScore]
  rw [if_pos h]

/-- Claim C1 (witness): the flat 61-day series takes the fallback branch. -/
theorem claimC1_witness :
    instrScore flatSeries (3/100) =
      ColVal.scalar (momVal (closesOf flatSeries) 60 * 10 * 0.7 + (3/100) * 0.3) := by
  have h : volAt (closesOf flatSeries) ((closesOf flatSeries).length - 1) = some 0 := by
    rw [flat_closes_length]
    exact flat_vol60
  have := claimC1_amended flatSeries (3/100) h
  rwa [flat_closes_length] at this

/-! ## Claim C2 -/

/-- Claim C2: when the last-position volatility is nonzero, the score at
every position `t` with defined inputs (`LOOKBACK_DAYS ≤ t < n`) is
`((m[t] - RISK_FREE_RATE/252) / vol[t]) * 0.7 + (yield/100) * 0.3`, with
`m[t] = close[t]/close[t-LOOKBACK_DAYS] - 1`,
`vol[t] = std(returns[t-LOOKBACK_DAYS+1..t]) * sqrt 252`, and a missing
ticker in the yield map defaulting to `3.0`. -/
theorem claimC2_score_formula (div_rates : List (String × ℝ)) (ticker : String)
    (s : List (ℕ × ℝ)) (t : ℕ)
    (hvol : volAt (closesOf s) ((closesOf s).length - 1) ≠ some 0)
    (ht : LOOKBACK_DAYS ≤ t) (ht2 : t < s.length) :
    ∃ col, instrScore s (divFactorOf div_rates ticker) = ColVal.series col ∧
      col.getD t (0, none) =
        ((s.getD t (0, 0)).1,
         some (((closeAt (closesOf s) t / closeAt (closesOf s) (t - LOOKBACK_DAYS) - 1)
                  - RISK_FREE_RATE / 252)
                / (sampleStd (retWindow (closesOf s) t) * Real.sqrt 252) * 0.7
               + (div_rates.lookup ticker).getD 3 / 100 * 0.3)) := by
  have hlen : (closesOf s).length = s.length := by simp [closesOf]
  refine ⟨(List.range s.length).map
      (fun u => ((s.getD u (0, 0)).1, scoreAt (closesOf s) (divFactorOf div_rates ticker) u)),
    ?_, ?_⟩
  · simp only [instrScore]
    rw [if_neg hvol]
  · rw [getD_map_range _ (0, none) ht2]
    refine congrArg _ ?_
    rw [scoreAt, sharpeElse, if_pos ⟨ht, by rw [hlen]; exact ht2⟩]
    rfl

/-- Claim C2 (witness): instantiated on `exSeries` at position 60 with an
empty yield map. -/
theorem claimC2_witness :
    ∃ col, instrScore exSeries (divFactorOf [] "510720") = ColVal.series col ∧
      col.getD 60 (0, none) =
        ((exSeries.getD 60 (0, 0)).1,
         some (((closeAt (closesOf exSeries) 60
                   / closeAt (closesOf exSeries) (60 - LOOKBACK_DAYS) - 1)
                  - RISK_FREE_RATE / 252)
                / (sampleStd (retWindow (closesOf exSeries) 60) * Real.sqrt 252) * 0.7
               + (List.lookup "510720" ([] : List (String × ℝ))).getD 3 / 100 * 0.3)) :=
  claimC2_score_formula [] "510720" exSeries 60 ex_vol_last_ne
    (by norm_num [LOOKBACK_DAYS]) (by rw [exSeries_length]; norm_num)

/-! ## Claim C4 -/

/-- Claim C4 (counterexample): when a fresh on-disk cache is used, its
stored rates are returned with NO plausibility filtering (line 44).  A
cache written moments ago containing the rate `20` (`>= 15`) is returned
verbatim, so an implausible value does appear in the returned map. -/
theorem claimC4_counterexample :
    get_dividend_rates (some (0, [("510720", 20)])) 0 (fun _ => .fail)
        = [("510720", (20:ℚ))] ∧
      ¬ (0 < (20:ℚ) ∧ (20:ℚ) < 15) := by
  constructor
  · rfl
  · decide

/-- Claim C4 (amended): on every execution that takes the refresh path
(no usable fresh cache), each entry of the returned map is either the
2-decimal rounding of a fetched value strictly between 0 and 15, or the
hardcoded per-instrument default; a fresh cache is returned as stored,
without validation. -/
theorem claimC4_amended (cache : Option (ℤ × List (String × ℚ))) (now : ℤ)
    (fetch : String → FetchResult)
    (hstale : ∀ lu rates, cache = some (lu, rates) → cacheFresh now lu = false) :
    ∀ p ∈ get_dividend_rates cache now fetch,
      (∃ w, fetch p.1 = .ok w ∧ 0 < w ∧ w < 15 ∧ p.2 = pyRound2 w) ∨
        p.2 = defaultDiv p.1 := by
  have hrefresh : get_dividend_rates cache now fetch = refreshRates fetch := by
    match cache with
    | none => rfl
    | some (lu, rates) =>
        rw [get_dividend_rates]
        rw [hstale lu rates rfl]
        simp
  rw [hrefresh, refreshRates]
  intro p hp
  obtain ⟨tk, _, rfl⟩ := List.mem_map.mp hp
  rcases hres : fetch tk with _ | v
  · right
    simp [fetchDivRate, hres]
  · rcases hrange : decide (0 < v ∧ v < 15) with _ | _
    · right
      have : ¬ (0 < v ∧ v < 15) := of_decide_eq_false hrange
      simp [fetchDivRate, hres, this]
    · left
      have hv : 0 < v ∧ v < 15 := of_decide_eq_true hrange
      exact ⟨v, rfl, hv.1, hv.2, by simp [fetchDivRate, hv]⟩

/-- Claim C4 (witness): the amended statement applied to a cacheless run
whose fetches all return 7%. -/
theorem claimC4_witness :
    (∃ w, (fun _ : String => FetchResult.ok 7) "510720" = .ok w ∧
        0 < w ∧ w < 15 ∧ ((("510720", pyRound2 7) : String × ℚ)).2 = pyRound2 w) ∨
      ((("510720", pyRound2 7) : String × ℚ)).2 = defaultDiv "510720" :=
  claimC4_amended none 0 (fun _ => .ok 7) (by intro lu rates h; cases h)
    ("510720", pyRound2 7)
    (by norm_num [get_dividend_rates, refreshRates, ETF_tickers, fetchDivRate])

/-! ## Claim C8 -/

/-- Claim C8 (evaluation at the failing input): when all three fetches
succeed with a plausible value, the `continue` on line 64 skips the
`time.sleep(REQUEST_DELAY)` on line 72 after EVERY request, so no delay
at all separates the successive instrument requests — contradicting the
claim that the delay occurs regardless of success. -/
theorem claimC8_trace :
    refreshTrace (fun _ => .ok 5)
      = [Ev.request "510720", Ev.request "515180", Ev.request "512890"] ∧
    refreshTrace (fun _ => .fail)
      = [Ev.request "510720", Ev.sleep REQUEST_DELAY,
         Ev.request "515180", Ev.sleep REQUEST_DELAY,
         Ev.request "512890", Ev.sleep REQUEST_DELAY] := by
  constructor
  · rfl
  · rfl

/-! ## Claim C9 -/

/-- Claim C9 (evaluation): `requests` is not among the module's imported
names, so every call of `send_wechat_notification` raises `NameError`
(the `except requests.RequestException` clause cannot even be evaluated)
and the exception propagates to the caller — for every message and
whatever the POST would have returned. -/
theorem claimC9_raises (message : String) (postResult : Except Unit Unit) :
    send_wechat_notification message postResult = .raised "NameError" := rfl

/-! ## Claim C10 -/

/-- Claim C10: the freshness check is `(now - last_update).days <
DIV_CACHE_DAYS` (floor-division by 86400 seconds); at any time of day
(`sec` seconds past midnight), a cache last updated 29 days ago is fresh
and its rates are returned, while one last updated 30 days ago is stale
and triggers a refresh. -/
theorem claimC10_cache_freshness (day sec : ℤ) (rates : List (String × ℚ))
    (fetch : String → FetchResult) (hs0 : 0 ≤ sec) (hs1 : sec < 86400) :
    (∀ lu : ℤ, cacheFresh (day * 86400 + sec) lu = true ↔
        (day * 86400 + sec - lu).fdiv 86400 < DIV_CACHE_DAYS) ∧
    cacheFresh (day * 86400 + sec) ((day - 29) * 86400) = true ∧
    cacheFresh (day * 86400 + sec) ((day - 30) * 86400) = false ∧
    get_dividend_rates (some ((day - 29) * 86400, rates)) (day * 86400 + sec) fetch
        = rates ∧
    get_dividend_rates (some ((day - 30) * 86400, rates)) (day * 86400 + sec) fetch
        = refreshRates fetch := by
  have h29 : (day * 86400 + sec - (day - 29) * 86400).fdiv 86400 = 29 := by
    rw [Int.fdiv_eq_ediv _ (by norm_num)]
    have harg : day * 86400 + sec - (day - 29) * 86400 = 29 * 86400 + sec := by ring
    rw [harg]
    omega
  have h30 : (day * 86400 + sec - (day - 30) * 86400).fdiv 86400 = 30 := by
    rw [Int.fdiv_eq_ediv _ (by norm_num)]
    have harg : day * 86400 + sec - (day - 30) * 86400 = 30 * 86400 + sec := by ring
    rw [harg]
    omega
  have hf29 : cacheFresh (day * 86400 + sec) ((day - 29) * 86400) = true := by
    rw [cacheFresh, h29]
    norm_num [DIV_CACHE_DAYS]
  have hf30 : cacheFresh (day * 86400 + sec) ((day - 30) * 86400) = false := by
    rw [cacheFresh, h30]
    norm_num [DIV_CACHE_DAYS]
  refine ⟨fun lu => by rw [cacheFresh]; exact decide_eq_true_iff, hf29, hf30, ?_, ?_⟩
  · rw [get_dividend_rates, hf29]
    simp
  · rw [get_dividend_rates, hf30]
    simp

/-- Claim C10 (witness): instantiated at day 20000, 10:00 in the morning. -/
theorem claimC10_witness :
    cacheFresh (20000 * 86400 + 36000) ((20000 - 29) * 86400) = true ∧
    cacheFresh (20000 * 86400 + 36000) ((20000 - 30) * 86400) = false :=
  ⟨(claimC10_cache_freshness 20000 36000 [] (fun _ => .fail)
      (by norm_num) (by norm_num)).2.1,
   (claimC10_cache_freshness 20000 36000 [] (fun _ => .fail)
      (by norm_num) (by norm_num)).2.2.1⟩

/-! ## Claim C5 -/

/-- A raw frame with valid column names, 60 rows, already date-ordered,
and a duplicated final date (58 appears twice). -/
def cexRawC5 : RawDF :=
  ⟨["日期", "收盘"], ((List.range 59).map (fun i => (i, (1:ℝ)))) ++ [(58, 2)]⟩

lemma cexRawC5_sorted : List.Sorted dateLe cexRawC5.data := by decide

lemma fetch_one_cexRawC5 : fetch_etf_one cexRawC5 = some cexRawC5.data := by
  have hcond : ((cexRawC5.cols.filter (fun c => colHas "日期" c)).isEmpty ||
      (cexRawC5.cols.filter (fun c => colHas "收盘" c)).isEmpty) = false := by decide
  have hlen : cexRawC5.data.length = 60 := by simp [cexRawC5]
  simp only [fetch_etf_one]
  rw [hcond, List.Sorted.insertionSort_eq cexRawC5_sorted]
  simp [hlen, LOOKBACK_DAYS]

/-- Claim C5 (counterexample): the provider does NOT deduplicate dates.
On a 60-row frame whose last date is duplicated, `fetch_etf_data`
accepts the series unchanged; its dates are not strictly increasing and
contain a duplicate. -/
theorem claimC5_counterexample :
    fetch_etf_one cexRawC5 = some cexRawC5.data ∧
    ¬ (cexRawC5.data.map Prod.fst).Pairwise (· < ·) ∧
    ¬ (cexRawC5.data.map Prod.fst).Nodup :=
  ⟨fetch_one_cexRawC5, by decide, by decide⟩

lemma fetch_etf_one_sound {raw : RawDF} {s : List (ℕ × ℝ)}
    (h : fetch_etf_one raw = some s) :
    (s.map Prod.fst).Sorted (· ≤ ·) ∧ LOOKBACK_DAYS ≤ s.length ∧ s.Perm raw.data := by
  simp only [fetch_etf_one] at h
  split at h
  · exact absurd h (by simp)
  · split at h
    · exact absurd h (by simp)
    · next hlt =>
        cases Option.some_inj.mp h
        refine ⟨?_, by omega, List.perm_insertionSort dateLe raw.data⟩
        exact List.pairwise_map.mpr (List.sorted_insertionSort dateLe raw.data)

lemma fetch_etf_data_cons (p : String × RawDF) (rest : List (String × RawDF)) :
    fetch_etf_data (p :: rest) =
      match fetch_etf_one p.2 with
      | some s => (p.1, s) :: fetch_etf_data rest
      | none => fetch_etf_data rest := rfl

/-- Claim C5 (amended): every series returned by the provider is sorted
by date in NON-strict ascending order (duplicates are preserved, nothing
deduplicates), has at least `LOOKBACK_DAYS` rows, and is a permutation
of the raw rows of its instrument. -/
theorem claimC5_amended (raws : List (String × RawDF)) (ticker : String)
    (s : List (ℕ × ℝ)) (h : (ticker, s) ∈ fetch_etf_data raws) :
    (s.map Prod.fst).Sorted (· ≤ ·) ∧ LOOKBACK_DAYS ≤ s.length ∧
      ∃ raw, (ticker, raw) ∈ raws ∧ s.Perm raw.data := by
  induction raws with
  | nil => cases h
  | cons p rest ih =>
      rw [fetch_etf_data_cons] at h
      rcases hf : fetch_etf_one p.2 with _ | s'
      · rw [hf] at h
        obtain ⟨h1, h2, raw, hraw, hperm⟩ := ih h
        exact ⟨h1, h2, raw, List.mem_cons_of_mem p hraw, hperm⟩
      · rw [hf] at h
        rcases List.mem_cons.mp h with heq | htail
        · obtain ⟨hts, hss⟩ := Prod.mk.injEq .. ▸ heq
          subst hts
          subst hss
          obtain ⟨h1, h2, hperm⟩ := fetch_etf_one_sound hf
          exact ⟨h1, h2, p.2, by simp, hperm⟩
        · obtain ⟨h1, h2, raw, hraw, hperm⟩ := ih htail
          exact ⟨h1, h2, raw, List.mem_cons_of_mem p hraw, hperm⟩

/-- Claim C5 (witness): the amended statement applied to the duplicated
60-row frame. -/
theorem claimC5_witness :
    (cexRawC5.data.map Prod.fst).Sorted (· ≤ ·) ∧
      LOOKBACK_DAYS ≤ cexRawC5.data.length ∧
      ∃ raw, ("510720", raw) ∈ [("510720", cexRawC5)] ∧ cexRawC5.data.Perm raw.data :=
  claimC5_amended [("510720", cexRawC5)] "510720" cexRawC5.data
    (by rw [fetch_etf_data_cons, fetch_one_cexRawC5]; exact List.mem_singleton.mpr rfl)

/-! ## Claim C6 -/

lemma assignCol_cols (T : ScoreTable) (name : String) (c : ColVal) :
    (assignCol T name c).cols.map Prod.fst = T.cols.map Prod.fst ++ [name] := by
  rcases c with v | s
  · rw [assignCol]
    by_cases hT : T.cols.isEmpty
    · rw [if_pos hT]
      rw [List.isEmpty_iff.mp hT]
      rfl
    · rw [if_neg hT]
      simp
  · rw [assignCol]
    by_cases hT : T.cols.isEmpty
    · rw [if_pos hT]
      rw [List.isEmpty_iff.mp hT]
      rfl
    · rw [if_neg hT]
      simp

lemma buildSignals_cols_aux (div_rates : List (String × ℝ))
    (data : List (String × List (ℕ × ℝ))) :
    ∀ T : ScoreTable,
      ((data.foldl
          (fun T p =>
            if p.2.length < LOOKBACK_DAYS then T
            else assignCol T p.1 (instrScore p.2 (divFactorOf div_rates p.1)))
          T).cols.map Prod.fst)
        = T.cols.map Prod.fst
          ++ (data.filter (fun p => ! decide (p.2.length < LOOKBACK_DAYS))).map Prod.fst := by
  induction data with
  | nil => intro T; simp
  | cons p rest ih =>
      intro T
      rw [List.foldl_cons, List.filter_cons]
      by_cases hp : p.2.length < LOOKBACK_DAYS
      · rw [if_pos hp, ih T]
        simp [hp]
      · rw [if_neg hp, ih _]
        simp [hp, assignCol_cols]

lemma dropna_cols (T : ScoreTable) :
    (dropna T).cols.map Prod.fst = T.cols.map Prod.fst := by
  simp [dropna, List.map_map, Function.comp_def]

lemma calculate_signals_cols (data : List (String × List (ℕ × ℝ)))
    (div_rates : List (String × ℝ)) :
    (calculate_signals data div_rates).cols.map Prod.fst
      = (data.filter (fun p => ! decide (p.2.length < LOOKBACK_DAYS))).map Prod.fst := by
  rw [calculate_signals, dropna_cols, buildSignals]
  simpa using buildSignals_cols_aux div_rates data ⟨[], []⟩

/-- Claim C6: a series of exactly `LOOKBACK_DAYS` rows is accepted by the
provider (given identifiable date/close columns), while one of
`LOOKBACK_DAYS - 1` rows is rejected regardless; and the signal engine
keeps a score column exactly for the instruments with at least
`LOOKBACK_DAYS` observations (its momentum/volatility series are total
`Option`-valued functions, so no access can fault).  -/
theorem claimC6_boundary (raw : RawDF) :
    (raw.data.length = LOOKBACK_DAYS →
       ((raw.cols.filter (fun c => colHas "日期" c)).isEmpty ||
        (raw.cols.filter (fun c => colHas "收盘" c)).isEmpty) = false →
       (fetch_etf_one raw).isSome = true) ∧
    (raw.data.length = LOOKBACK_DAYS - 1 → fetch_etf_one raw = none) ∧
    (∀ data div_rates,
       (calculate_signals data div_rates).cols.map Prod.fst
         = (data.filter (fun p => ! decide (p.2.length < LOOKBACK_DAYS))).map Prod.fst) := by
  refine ⟨?_, ?_, fun data div_rates => calculate_signals_cols data div_rates⟩
  · intro hlen hcols
    simp only [fetch_etf_one]
    rw [hcols]
    simp [List.length_insertionSort, hlen]
  · intro hlen
    simp only [fetch_etf_one]
    split
    · rfl
    · have hlt : (raw.data.insertionSort dateLe).length < LOOKBACK_DAYS := by
        rw [List.length_insertionSort, hlen]
        norm_num [LOOKBACK_DAYS]
      rw [if_pos hlt]

/-- Raw frames for the boundary witness: 60 rows and 59 rows. -/
def okRaw60 : RawDF := ⟨["日期", "收盘"], (List.range 60).map (fun i => (i, 1))⟩

def okRaw59 : RawDF := ⟨["日期", "收盘"], (List.range 59).map (fun i => (i, 1))⟩

/-- Claim C6 (witness): the boundary behaviour at 60 and 59 rows, and the
column set of a run whose only instrument has exactly 60 rows. -/
theorem claimC6_witness :
    (fetch_etf_one okRaw60).isSome = true ∧
    fetch_etf_one okRaw59 = none ∧
    (calculate_signals [("510720", flat60Series)] []).cols.map Prod.fst
      = ([("510720", flat60Series)].filter
          (fun p => ! decide (p.2.length < LOOKBACK_DAYS))).map Prod.fst :=
  ⟨(claimC6_boundary okRaw60).1 (by simp [okRaw60, LOOKBACK_DAYS]) (by decide),
   (claimC6_boundary okRaw59).2.1 (by simp [okRaw59, LOOKBACK_DAYS]),
   (claimC6_boundary okRaw60).2.2 [("510720", flat60Series)] []⟩

/-! ## Claim C7 -/

/-- The table has a column every one of whose cells is NaN. -/
def HasNoneCol (T : ScoreTable) : Prop :=
  ∃ c ∈ T.cols, ∀ v ∈ c.2, v = (none : Option ℝ)

lemma assignCol_preserves_noneCol (T : ScoreTable) (name : String) (c : ColVal)
    (h : HasNoneCol T) : HasNoneCol (assignCol T name c) := by
  obtain ⟨col, hmem, hnone⟩ := h
  have hT : ¬ T.cols.isEmpty = true := by
    intro he
    rw [List.isEmpty_iff.mp he] at hmem
    cases hmem
  rcases c with v | s
  · exact ⟨col, by simp only [assignCol]; rw [if_neg hT]; exact List.mem_append_left _ hmem,
      hnone⟩
  · exact ⟨col, by simp only [assignCol]; rw [if_neg hT]; exact List.mem_append_left _ hmem,
      hnone⟩

lemma instrScore_len60_none (s : List (ℕ × ℝ)) (divF : ℝ)
    (h : s.length = LOOKBACK_DAYS) :
    ∃ l, instrScore s divF = ColVal.series l ∧ ∀ p ∈ l, p.2 = (none : Option ℝ) := by
  have hcl : (closesOf s).length = s.length := by simp [closesOf]
  have hvol : volAt (closesOf s) ((closesOf s).length - 1) = none := by
    rw [volAt, if_neg]
    rintro ⟨h1, _⟩
    rw [hcl, h] at h1
    norm_num [LOOKBACK_DAYS] at h1
  refine ⟨(List.range s.length).map
      (fun t => ((s.getD t (0, 0)).1, scoreAt (closesOf s) divF t)), ?_, ?_⟩
  · simp only [instrScore]
    rw [if_neg (by rw [hvol]; exact fun hc => Option.noConfusion hc)]
  · intro p hp
    obtain ⟨t, ht, rfl⟩ := List.mem_map.mp hp
    show scoreAt (closesOf s) divF t = none
    rw [scoreAt, sharpeElse, if_neg]
    · rfl
    · rintro ⟨h1, h2⟩
      rw [hcl, h] at h2
      omega

lemma step_establishes_noneCol (T : ScoreTable) (ticker : String) (s : List (ℕ × ℝ))
    (divF : ℝ) (h : s.length = LOOKBACK_DAYS) :
    HasNoneCol (assignCol T ticker (instrScore s divF)) := by
  obtain ⟨l, hl, hnone⟩ := instrScore_len60_none s divF h
  rw [hl]
  simp only [assignCol]
  by_cases hT : T.cols.isEmpty = true
  · rw [if_pos hT]
    refine ⟨(ticker, l.map (fun p => p.2)), by simp, ?_⟩
    intro v hv
    obtain ⟨p, hp, rfl⟩ := List.mem_map.mp hv
    exact hnone p hp
  · rw [if_neg hT]
    refine ⟨(ticker, T.index.map (fun d => (l.find? (fun p => p.1 == d)).bind (fun p => p.2))),
      List.mem_append_right _ (List.mem_singleton.mpr rfl), ?_⟩
    intro v hv
    obtain ⟨d, hd, rfl⟩ := List.mem_map.mp hv
    rcases hf : l.find? (fun p => p.1 == d) with _ | p
    · rw [hf]
      rfl
    · rw [hf]
      show (some p).bind (fun p => p.2) = none
      exact hnone p (List.mem_of_find?_eq_some hf)

lemma dropna_index_of_noneCol (T : ScoreTable) (h : HasNoneCol T) :
    (dropna T).index = [] := by
  obtain ⟨c, hmem, hnone⟩ := h
  have hkept : keptRows T = [] := by
    rw [keptRows, List.filter_eq_nil_iff]
    intro i _ hall
    have := List.all_eq_true.mp hall c hmem
    rw [getD_all_none hnone i] at this
    cases this
  rw [dropna, hkept]
  rfl

lemma foldl_preserves_noneCol (div_rates : List (String × ℝ))
    (post : List (String × List (ℕ × ℝ))) :
    ∀ T : ScoreTable, HasNoneCol T →
      HasNoneCol (post.foldl
        (fun T p =>
          if p.2.length < LOOKBACK_DAYS then T
          else assignCol T p.1 (instrScore p.2 (divFactorOf div_rates p.1)))
        T) := by
  induction post with
  | nil => intro T h; exact h
  | cons p rest ih =>
      intro T h
      rw [List.foldl_cons]
      by_cases hp : p.2.length < LOOKBACK_DAYS
      · rw [if_pos hp]
        exact ih T h
      · rw [if_neg hp]
        exact ih _ (assignCol_preserves_noneCol _ _ _ h)

/-- Claim C7: one instrument with exactly `LOOKBACK_DAYS` observations
(whose momentum/volatility — hence score — series is NaN at every date)
makes its whole column NaN, so `dropna` removes every row: the returned
table is empty and the run produces no recommendation, regardless of all
other instruments. -/
theorem claimC7_degenerate_empties_table (data : List (String × List (ℕ × ℝ)))
    (div_rates : List (String × ℝ)) (ticker : String) (s : List (ℕ × ℝ))
    (hmem : (ticker, s) ∈ data) (hlen : s.length = LOOKBACK_DAYS) :
    (calculate_signals data div_rates).index = [] ∧
      recommend (calculate_signals data div_rates) = none := by
  obtain ⟨pre, post, rfl⟩ := List.append_of_mem hmem
  have hbuild : HasNoneCol (buildSignals (pre ++ (ticker, s) :: post) div_rates) := by
    rw [buildSignals, List.foldl_append, List.foldl_cons]
    rw [if_neg (by rw [hlen]; exact lt_irrefl _)]
    exact foldl_preserves_noneCol div_rates post _
      (step_establishes_noneCol _ ticker s _ hlen)
  have hidx : (calculate_signals (pre ++ (ticker, s) :: post) div_rates).index = [] :=
    dropna_index_of_noneCol _ hbuild
  refine ⟨hidx, ?_⟩
  rw [recommend, if_pos (by rw [hidx]; rfl)]

/-- Claim C7 (witness): a single instrument with exactly 60 observations
yields an empty table and no recommendation. -/
theorem claimC7_witness :
    (calculate_signals [("510720", flat60Series)] []).index = [] ∧
      recommend (calculate_signals [("510720", flat60Series)] []) = none :=
  claimC7_degenerate_empties_table [("510720", flat60Series)] [] "510720" flat60Series
    (List.mem_singleton.mpr rfl) (by simp [flat60Series, LOOKBACK_DAYS])

/-! ## Claim C3 -/

/-- Claim C3: `dropna` keeps a date row if and only if every instrument
column of the built frame holds a defined (non-NaN) value at it.  Part
one: every row of the returned table is complete across all columns.
Part two: every complete row of the built frame survives into the
returned table. -/
theorem claimC3_row_completeness (data : List (String × List (ℕ × ℝ)))
    (div_rates : List (String × ℝ)) :
    (∀ i, i < (calculate_signals data div_rates).index.length →
       ∀ c ∈ (calculate_signals data div_rates).cols, (c.2.getD i none).isSome = true) ∧
    (∀ i, i < (buildSignals data div_rates).index.length →
       (∀ c ∈ (buildSignals data div_rates).cols, (c.2.getD i none).isSome = true) →
       (buildSignals data div_rates).index.getD i 0
         ∈ (calculate_signals data div_rates).index) := by
  constructor
  · intro i hi c hc
    simp only [calculate_signals, dropna] at hi hc
    rw [List.length_map] at hi
    obtain ⟨c0, hc0, rfl⟩ := List.mem_map.mp hc
    show (((keptRows (buildSignals data div_rates)).map
        (fun j => c0.2.getD j none)).getD i none).isSome = true
    obtain ⟨j, hj⟩ : ∃ j, (keptRows (buildSignals data div_rates))[i]? = some j :=
      ⟨_, List.getElem?_eq_getElem hi⟩
    rw [List.getD_eq_getElem?_getD, List.getElem?_map, hj]
    have hjmem : j ∈ keptRows (buildSignals data div_rates) :=
      List.mem_iff_getElem?.mpr ⟨i, hj⟩
    rw [keptRows, List.mem_filter] at hjmem
    have := List.all_eq_true.mp hjmem.2 c0 hc0
    simpa using this
  · intro i hi hall
    have hkeep : i ∈ keptRows (buildSignals data div_rates) := by
      rw [keptRows, List.mem_filter]
      exact ⟨List.mem_range.mpr hi, List.all_eq_true.mpr (fun c hc => hall c hc)⟩
    exact List.mem_map_of_mem _ hkeep

lemma ex_build_eq :
    buildSignals [("510720", exSeries)] [] =
      ⟨(List.range exSeries.length).map (fun t => (exSeries.getD t (0, 0)).1),
       [("510720", (List.range exSeries.length).map
          (fun t => scoreAt (closesOf exSeries) (divFactorOf [] "510720") t))]⟩ := by
  rw [buildSignals, List.foldl_cons, List.foldl_nil]
  rw [if_neg (by rw [exSeries_length]; norm_num [LOOKBACK_DAYS])]
  simp only [instrScore]
  rw [if_neg ex_vol_last_ne]
  simp [assignCol, List.map_map, Function.comp_def]

lemma ex_score60_isSome :
    (scoreAt (closesOf exSeries) (divFactorOf [] "510720") 60).isSome = true := by
  rw [scoreAt, sharpeElse,
    if_pos ⟨by norm_num [LOOKBACK_DAYS], by rw [ex_closes_length]; norm_num⟩]
  rfl

lemma ex_getD60 : (exSeries.getD 60 (0, 0)).1 = 60 := by
  rw [exSeries, List.getD_append _ _ _ _ (by simp), getD_map_range _ _ (by norm_num)]

/-- Claim C3 (witness): on the concrete 62-day series, the complete row
at position 60 of the built frame survives `dropna`: date 60 is a row of
the returned table. -/
theorem claimC3_witness : (60 : ℕ) ∈ (calculate_signals [("510720", exSeries)] []).index := by
  have h := (claimC3_row_completeness [("510720", exSeries)] []).2 60
    (by rw [ex_build_eq]; simp [exSeries_length])
    (by
      intro c hc
      rw [ex_build_eq] at hc
      obtain rfl := List.mem_singleton.mp hc
      show ((((List.range exSeries.length)).map
          (fun t => scoreAt (closesOf exSeries) (divFactorOf [] "510720") t)).getD
            60 none).isSome = true
      rw [getD_map_range _ _ (by rw [exSeries_length]; norm_num)]
      exact ex_score60_isSome)
  rw [ex_build_eq] at h
  rwa [getD_map_range _ _ (by rw [exSeries_length]; norm_num), ex_getD60] at h
